import Mathlib

set_option maxRecDepth 100000

/-!
Shallow embedding of the ms-cfb repository (src/cfb.h, src/doc.h, src/byteorder.h)
and verification of the frozen claims about its specification.

Modelling conventions:
* A file or stream is a list of byte values (naturals below 256).
* Reads that the C code performs with a checked fread are Option-valued:
  none models a failed read whose effect the code observes.
* Reads whose failure the C code ignores while the destination object was
  previously initialised keep the initialised value (getD), matching the C.
* Situations in which the C program reads indeterminate memory (an array index
  outside its allocation, an uninitialised variable after an unchecked failed
  fread) are modelled as none: the value is not determined by the input bytes.
* Machine integers are naturals; 32-bit unsigned arithmetic is taken modulo
  2 to the 32 where the C expression has type DWORD, ULONG, SECT or FSINDEX.
* The C type char is implementation defined in signedness; byte comparisons
  and byte to integer conversions are modelled on the unsigned byte values,
  which is the behaviour on unsigned-char targets and the portable intent.
-/

namespace MsCfb

abbrev Bytes := List Nat

/-- 32-bit truncation for DWORD / ULONG / SECT arithmetic. -/
def w32 (x : Nat) : Nat := x % 4294967296

/-- 32-bit unsigned subtraction with wrap-around, as in C. -/
def sub32 (a b : Nat) : Nat := (w32 a + 4294967296 - w32 b) % 4294967296

/-- bo_16_sw from src/byteorder.h: swap the two bytes of a 16-bit value. -/
def bswap16 (x : Nat) : Nat := (x % 256) * 256 + (x / 256) % 256

/-- bo_32_sw / bswap_32: reverse the four bytes of a 32-bit value. -/
def bswap32 (x : Nat) : Nat :=
  (x % 256) * 16777216 + ((x / 256) % 256) * 65536 +
  ((x / 65536) % 256) * 256 + (x / 16777216) % 256

/-- Checked read of one byte (fread of size 1 observing the result). -/
def readU8 (f : Bytes) (off : Nat) : Option Nat := f.get? off

/-- Checked little-endian read of a 16-bit value. -/
def readU16 (f : Bytes) (off : Nat) : Option Nat := do
  let a ← f.get? off
  let b ← f.get? (off + 1)
  pure (a + 256 * b)

/-- Checked little-endian read of a 32-bit value. -/
def readU32 (f : Bytes) (off : Nat) : Option Nat := do
  let a ← f.get? off
  let b ← f.get? (off + 1)
  let c ← f.get? (off + 2)
  let d ← f.get? (off + 3)
  pure (a + 256 * b + 65536 * c + 16777216 * d)

/-- Little-endian 16-bit field of a buffer already read into memory
    (buffer length is checked by the caller, missing bytes read as zero). -/
def u16le (f : Bytes) (off : Nat) : Nat :=
  (f.get? off).getD 0 + 256 * ((f.get? (off + 1)).getD 0)

/-- Little-endian 32-bit field of a buffer already read into memory. -/
def u32le (f : Bytes) (off : Nat) : Nat :=
  (f.get? off).getD 0 + 256 * ((f.get? (off + 1)).getD 0) +
  65536 * ((f.get? (off + 2)).getD 0) + 16777216 * ((f.get? (off + 3)).getD 0)

/-- Build a concrete byte buffer: zeroes of the given length with point writes. -/
def mkBytes (len : Nat) (writes : List (Nat × Nat)) : Bytes :=
  writes.foldl (fun acc p => acc.set p.1 p.2) (List.replicate len 0)

/-
Sector constants from src/cfb.h.
-/

def MAXSECT : Nat := 0xFFFFFFFB
def DIFSECT : Nat := 0xFFFFFFFC
def FATSECT : Nat := 0xFFFFFFFD
def ENDOFCHAIN : Nat := 0xFFFFFFFE
def FREESECT : Nat := 0xFFFFFFFF

/-- StructuredStorageDirectoryEntry (src/cfb.h), restricted to the fields the
    embedded operations consult. -/
structure CfbDir where
  ab : Bytes
  cb : Nat
  mse : Nat
  sidLeftSib : Nat
  sidRightSib : Nat
  sidChild : Nat
  sectStart : Nat
  ulSize : Nat
deriving DecidableEq, Repr

def zeroDir : CfbDir :=
  { ab := List.replicate 64 0, cb := 0, mse := 0, sidLeftSib := 0,
    sidRightSib := 0, sidChild := 0, sectStart := 0, ulSize := 0 }

/-- struct cfb (src/cfb.h): the open container handle.  The header fields kept
    are those the embedded functions read; sectFat holds the raw values of the
    109-entry header array _sectFat (byte swapping, when active, is applied at
    the point of use exactly as in _cfb_next_sect_in_FAT_chain). -/
structure Cfb where
  file : Bytes
  ministream : Bytes
  biteOrder : Bool
  uSectorShift : Nat
  uMiniSectorShift : Nat
  uDllVersion : Nat
  csectFat : Nat
  sectDirStart : Nat
  ulMiniSectorCutoff : Nat
  sectMiniFatStart : Nat
  csectMiniFat : Nat
  sectDifStart : Nat
  sectFat : Bytes
  root : CfbDir
deriving DecidableEq, Repr

/-
The FAT next-hop function _cfb_next_sect_in_FAT_chain (src/cfb.h lines 509-646).
The function is split into its two branches; fatNext selects between them with
the branch condition written in the source, sect < ssize * 109 (ssize in bytes).
-/

/-- Header branch of _cfb_next_sect_in_FAT_chain: index the 109-entry header
    array _sectFat at FAT_INDEX = sect / SECTn.  An index at or beyond 109
    reads outside the array in C; the value is then not determined by the
    input and is modelled as none. -/
def fatNextHeader (cfb : Cfb) (sect : Nat) : Option Nat :=
  let ssize := 2 ^ cfb.uSectorShift
  let sectn := ssize / 4
  let fatIndex := sect / sectn
  let sectIndex := sect - fatIndex * sectn
  match cfb.sectFat.get? fatIndex with
  | none => none
  | some fat0 =>
    let fat := if cfb.biteOrder then bswap32 fat0 else fat0
    match readU32 cfb.file (w32 (fat * ssize + ssize + sectIndex * 4)) with
    | none => some ENDOFCHAIN
    | some ch => some (if cfb.biteOrder then bswap32 ch else ch)

/-- The DIFAT hop loop of _cfb_next_sect_in_FAT_chain: i runs from 0 to
    DIFAT_INDEX - 1; a failed read of the next-DIFAT field returns ENDOFCHAIN
    from the whole function (Sum.inl). -/
def difatLoc (cfb : Cfb) (fatn ssize : Nat) : Nat → Nat → Sum Nat Nat
  | 0, difat => Sum.inr difat
  | i + 1, difat =>
    match readU32 cfb.file (w32 (difat * ssize + ssize + fatn * 4)) with
    | none => Sum.inl ENDOFCHAIN
    | some ch =>
      difatLoc cfb fatn ssize i (if cfb.biteOrder then bswap32 ch else ch)

/-- DIFAT branch of _cfb_next_sect_in_FAT_chain (the index computations are the
    unsigned 32-bit expressions of the source, wrap-around included). -/
def fatNextDifat (cfb : Cfb) (sect : Nat) : Option Nat :=
  let ssize := 2 ^ cfb.uSectorShift
  let sectn := ssize / 4
  let fatn := if cfb.uDllVersion = 4 then 1023 else 127
  let difatIndex := w32 (sub32 sect (sectn * 109) / fatn * sectn)
  let fatIndex := sub32 (sub32 sect (sectn * 109)) (difatIndex * sectn)
  let sectIndex := sub32 (sub32 (sub32 sect (sectn * 109)) (difatIndex * sectn)) (fatIndex * sectn)
  match difatLoc cfb fatn ssize difatIndex cfb.sectDifStart with
  | Sum.inl r => some r
  | Sum.inr difat =>
    match readU32 cfb.file (w32 (difat * ssize + ssize + fatIndex * 4)) with
    | none => some ENDOFCHAIN
    | some ch =>
      let fat := if cfb.biteOrder then bswap32 ch else ch
      match readU32 cfb.file (w32 (fat * ssize + ssize + sectIndex * 4)) with
      | none => some ENDOFCHAIN
      | some ch2 => some (if cfb.biteOrder then bswap32 ch2 else ch2)

/-- _cfb_next_sect_in_FAT_chain (src/cfb.h lines 509-646).  The branch test
    at line 542 compares sect against ssize * 109; ssize is a DWORD, so the
    product is 32-bit arithmetic and wraps modulo 2 to the 32 when
    _uSectorShift is 26 or larger (the header field is never validated). -/
def fatNext (cfb : Cfb) (sect : Nat) : Option Nat :=
  if sect > MAXSECT then some ENDOFCHAIN
  else
    let ssize := 2 ^ cfb.uSectorShift
    if sect < w32 (ssize * 109) then fatNextHeader cfb sect
    else fatNextDifat cfb sect

/-- The mini-FAT locating loop of _cfb_next_sect_in_mFAT_chain: mFAT_INDEX
    iterations of _cfb_next_sect_in_FAT_chain starting from _sectMiniFatStart. -/
def mFatLoc (cfb : Cfb) : Nat → Nat → Option Nat
  | 0, m => some m
  | i + 1, m =>
    match fatNext cfb m with
    | none => none
    | some m2 => mFatLoc cfb i m2

/-- _cfb_next_sect_in_mFAT_chain (src/cfb.h lines 648-701). -/
def mFatNext (cfb : Cfb) (sect : Nat) : Option Nat :=
  if sect > MAXSECT then some ENDOFCHAIN
  else
    let ssize := 2 ^ cfb.uSectorShift
    let sectn := ssize / 4
    let mfatIndex := sect / sectn
    let sectIndex := sect - mfatIndex * sectn
    match mFatLoc cfb mfatIndex cfb.sectMiniFatStart with
    | none => none
    | some mfat =>
      match readU32 cfb.file (w32 (mfat * ssize + ssize + sectIndex * 4)) with
      | none => some ENDOFCHAIN
      | some ch => some (if cfb.biteOrder then bswap32 ch else ch)

/-
Stream materialisation: cfb_get_stream_by_dir (src/cfb.h lines 722-797).
-/

/-- One whole-sector fread whose result the source does not check: bytes past
    the end of the data are indeterminate in C (the buffer keeps stale stack
    content); they are modelled as zero, and no claim depends on them. -/
def readSectorPad (f : Bytes) (off len : Nat) : Bytes :=
  (List.range len).map (fun i => (f.get? (off + i)).getD 0)

/-- The copy loop of cfb_get_stream_by_dir: while sect is not ENDOFCHAIN, read
    one whole sector at sect * ssize + sstart, append it, and step to the next
    sector.  The source has no visited set, no sector-range abort and no
    iteration bound; the loop is driven here by explicit fuel, and none means
    the fuel ran out (the C loop is still running) or the next-hop function hit
    an indeterminate read. -/
def streamLoop (next : Nat → Option Nat) (f : Bytes) (ssize sstart : Nat) :
    Nat → Nat → Bytes → Option Bytes
  | 0, _, _ => none
  | fuel + 1, sect, acc =>
    if sect = ENDOFCHAIN then some acc
    else
      let buf := readSectorPad f (w32 (sect * ssize + sstart)) ssize
      match next sect with
      | none => none
      | some s2 => streamLoop next f ssize sstart fuel s2 (acc ++ buf)

/-- cfb_get_stream_by_dir: select mini-FAT when the entry is not the Root and
    its size is below the cutoff, FAT otherwise, then run the copy loop from
    the starting sector.  The declared stream size dir.ulSize is read by the
    source (variable st) and used only in that chain-kind test; it never
    bounds or truncates the copy. -/
def cfbGetStreamByDir (cfb : Cfb) (dir : CfbDir) (fuel : Nat) : Option Bytes :=
  if dir.ulSize < cfb.ulMiniSectorCutoff ∧ dir.mse ≠ 5 then
    streamLoop (mFatNext cfb) cfb.ministream (2 ^ cfb.uMiniSectorShift) 0
      fuel dir.sectStart []
  else
    streamLoop (fatNext cfb) cfb.file (2 ^ cfb.uSectorShift) (2 ^ cfb.uSectorShift)
      fuel dir.sectStart []

/-
Directory entries: cfb_dir_by_sid / cfb_get_dir_by_sid (src/cfb.h lines 799-834)
and the name decoding cfb_dir_name (lines 703-720).
-/

/-- Parse a 128-byte directory entry at its C layout offsets. -/
def parseDir (b : Bytes) : CfbDir :=
  { ab := b.take 64
    cb := u16le b 64
    mse := (b.get? 66).getD 0
    sidLeftSib := u32le b 68
    sidRightSib := u32le b 72
    sidChild := u32le b 76
    sectStart := u32le b 116
    ulSize := u32le b 120 }

/-- _cfb_dir_sw restricted to the kept fields (name bytes are not swapped). -/
def dirSwap (d : CfbDir) : CfbDir :=
  { d with
    cb := bswap16 d.cb
    sidLeftSib := bswap32 d.sidLeftSib
    sidRightSib := bswap32 d.sidRightSib
    sidChild := bswap32 d.sidChild
    sectStart := bswap32 d.sectStart
    ulSize := bswap32 d.ulSize }

/-- cfb_get_dir_by_sid: seek to 512 + sid * 128 + (_sectDirStart shifted) and
    fread the 128-byte entry; a short read fails. -/
def cfbGetDirBySid (cfb : Cfb) (sid : Nat) : Option CfbDir :=
  let p := w32 (512 + sid * 128 + w32 (cfb.sectDirStart * 2 ^ cfb.uSectorShift))
  if p + 128 ≤ cfb.file.length then
    let d := parseDir ((cfb.file.drop p).take 128)
    some (if cfb.biteOrder then dirSwap d else d)
  else none

/-- The byte-pairing loop of cfb_dir_name: _cb bytes of the name field give
    _cb / 2 sixteen-bit units; when the second byte of a pair is nonzero the
    two bytes are combined high-first (a byte swap against UTF-16LE). -/
def dirNameUnits (ab : Bytes) (cb : Nat) : List Nat :=
  (List.range (cb / 2)).map (fun c =>
    let b0 := (ab.get? (2 * c)).getD 0
    let b1 := (ab.get? (2 * c + 1)).getD 0
    if b1 = 0 then b0 else (b0 * 256 + b1) % 65536)

/-- One code unit encoded by _utf16_to_utf8 (units never exceed 0xFFFF, so the
    invalid-character branch of the source is unreachable). -/
def utf8enc (wc : Nat) : Bytes :=
  if wc ≤ 0x7F then [wc]
  else if wc ≤ 0x7FF then [0xC0 + wc / 64, 0x80 + wc % 64]
  else [0xE0 + wc / 4096, 0x80 + (wc / 64) % 64, 0x80 + wc % 64]

/-- _utf16_to_utf8 over a unit list. -/
def utf16ToUtf8 (units : List Nat) : Bytes := (units.map utf8enc).flatten

/-- C-string view of a byte buffer: everything before the first zero byte. -/
def cstr (b : Bytes) : Bytes := b.takeWhile (· ≠ 0)

/-- The defined prefix of the name buffer written by cfb_dir_name: the source
    passes length _cb (bytes) to _utf16_to_utf8 although the VLA holds only
    _cb / 2 units, so the buffer is the encoding of the _cb / 2 defined units
    followed by indeterminate bytes (the encodings of the out-of-bounds
    reads). -/
def dirNamePrefix (dir : CfbDir) : Bytes := utf16ToUtf8 (dirNameUnits dir.ab dir.cb)

/-- cfb_dir_name as observed through strlen and strcmp.  _cb = 0 makes
    _utf16_to_utf8 return 0 and cfb_dir_name fail (-1).  Otherwise the call
    succeeds (return 0); only a zero unit encodes a zero byte, so when some
    defined unit is zero (names carry their UTF-16 terminator inside _cb) the
    observed C string is determined by the defined prefix; a nonempty name
    without a zero unit leaves the observed string indeterminate past the
    defined prefix (none: only its first (dirNamePrefix dir).length bytes,
    all nonzero, are defined). -/
def cfbDirName (dir : CfbDir) : Option Bytes :=
  if dir.cb = 0 then none
  else if 0 ∈ dirNameUnits dir.ab dir.cb then some (cstr (dirNamePrefix dir))
  else none

/-- strcmp on C strings (unsigned byte values, first difference decides). -/
def strcmpL : Bytes → Bytes → Int
  | [], [] => 0
  | [], y :: _ => 0 - (y : Int)
  | x :: _, [] => (x : Int)
  | x :: xs, y :: ys => if x = y then strcmpL xs ys else (x : Int) - (y : Int)

/-
The name search _cfb_dir_find / cfb_dir_by_name (src/cfb.h lines 836-897).
-/

/-- _cfb_dir_find: compare the target with the decoded entry name by strlen
    first, then strcmp; on equality fire the callback (the delivered entry);
    descend left when the target is smaller, otherwise (equality included)
    descend right; a sibling value of 0xFFFFFFFF ends the walk with return 0.
    The result is the pair of the C return value and the entry last delivered
    to the callback; none models exhausted fuel or recursion into a directory
    entry whose fread failed (the source ignores that failure and reads an
    uninitialised entry).  The comparison of _cfb_dir_find is factored into
    findCompare: strlen of the target against strlen of the decoded name,
    then strcmp. -/
def findCompare (name dirname : Bytes) : Int :=
  if name.length < dirname.length then -1
  else if name.length > dirname.length then 1
  else strcmpL name dirname

/-- The recursion of _cfb_dir_find.  Three cases per visited entry:
    _cb = 0 makes cfb_dir_name fail and the walk returns -1 with no delivery;
    a name with a zero unit among its _cb / 2 defined units has a fully
    determined C string (cstr of the defined prefix) and the walk proceeds by
    findCompare as the source does; a nonempty name without a zero unit has
    strlen at least (dirNamePrefix dir).length with the rest indeterminate, so
    when the target is strictly shorter than the defined prefix the comparison
    is determinately -1 (strlen test) and the walk still descends left — with
    the accumulator unchanged, the names being unequal — or stops with 0 at a
    leaf; when the target is not shorter the comparison depends on
    indeterminate bytes (none). -/
def findLoop (cfb : Cfb) (name : Bytes) :
    Nat → CfbDir → Option CfbDir → Option (Int × Option CfbDir)
  | 0, _, _ => none
  | fuel + 1, dir, acc =>
    if dir.cb = 0 then some (-1, acc)
    else if 0 ∈ dirNameUnits dir.ab dir.cb then
      let res : Int := findCompare name (cstr (dirNamePrefix dir))
      let acc2 := if res = 0 then some dir else acc
      if res < 0 then
        if dir.sidLeftSib ≠ 0xFFFFFFFF then
          match cfbGetDirBySid cfb dir.sidLeftSib with
          | none => none
          | some nd => findLoop cfb name fuel nd acc2
        else some (0, acc2)
      else
        if dir.sidRightSib ≠ 0xFFFFFFFF then
          match cfbGetDirBySid cfb dir.sidRightSib with
          | none => none
          | some nd => findLoop cfb name fuel nd acc2
        else some (0, acc2)
    else
      if name.length < (dirNamePrefix dir).length then
        if dir.sidLeftSib ≠ 0xFFFFFFFF then
          match cfbGetDirBySid cfb dir.sidLeftSib with
          | none => none
          | some nd => findLoop cfb name fuel nd acc
        else some (0, acc)
      else none

/-- cfb_dir_by_name / cfb_get_dir_by_name: read the entry at the Root child
    SID and search from it.  The source ignores a failed read of that entry
    and would walk from an uninitialised one; that case is none. -/
def cfbGetDirByName (cfb : Cfb) (fuel : Nat) (name : Bytes) :
    Option (Int × Option CfbDir) :=
  match cfbGetDirBySid cfb cfb.root.sidChild with
  | none => none
  | some d => findLoop cfb name fuel d none

/-
Container opening: _cfb_init (src/cfb.h lines 930-1046).
-/

def CFB_READ_ERR : Nat := 0x1
def CFB_SIG_ERR : Nat := 0x4
def CFB_BYTEORDE_ERR : Nat := 0x8
def CFB_HEADER_ERR : Nat := 0x80

def sigNew : Bytes := [0xd0, 0xcf, 0x11, 0xe0, 0xa1, 0xb1, 0x1a, 0xe1]
def sigOld : Bytes := [0x0e, 0x11, 0xfc, 0x0d, 0xd0, 0xcf, 0x11, 0xe0]

/-- The signature loop of _cfb_init: each of the first eight bytes passes when
    it equals the byte of the current signature at that position or the byte
    of the old signature at that position (byte values; see the char note at
    the top of the file). -/
def sigOk (f : Bytes) : Bool :=
  (List.range 8).all (fun i =>
    ((f.get? i).getD 0 == (sigNew.get? i).getD 0) ||
    ((f.get? i).getD 0 == (sigOld.get? i).getD 0))

/-- The tail of _cfb_init after a successful signature check: when
    _csectMiniFat is positive, load the Root entry (a failed read leaves the
    zeroed entry, as after memset) and materialise the mini-stream through
    cfb_get_stream_by_dir; none means that copy loop was still running when
    the fuel ran out. -/
def cfbFinish (cfb0 : Cfb) (fuel : Nat) : Option (Except Nat Cfb) :=
  if cfb0.csectMiniFat > 0 then
    match cfbGetStreamByDir { cfb0 with root := (cfbGetDirBySid cfb0 0).getD zeroDir }
        ((cfbGetDirBySid cfb0 0).getD zeroDir) fuel with
    | none => none
    | some ms =>
      some (Except.ok { cfb0 with
        root := (cfbGetDirBySid cfb0 0).getD zeroDir, ministream := ms })
  else some (Except.ok cfb0)

/-- _cfb_init: read the byte-order mark at 0x1C, read the 512-byte header,
    swap its fields when big-endian, check the signature per byte, and hand
    over to cfbFinish. -/
def cfbInit (f : Bytes) (fuel : Nat) : Option (Except Nat Cfb) :=
  match readU16 f 0x1C with
  | none => some (Except.error (CFB_READ_ERR + CFB_BYTEORDE_ERR))
  | some bom =>
    if bom = 0xFFFE ∨ bom = 0xFEFF then
      let bo := bom = 0xFEFF
      if 512 ≤ f.length then
        let sw16 := fun x => if bo then bswap16 x else x
        let sw32 := fun x => if bo then bswap32 x else x
        let cfb0 : Cfb :=
          { file := f
            ministream := []
            biteOrder := bo
            uSectorShift := sw16 (u16le f 0x1E)
            uMiniSectorShift := sw16 (u16le f 0x20)
            uDllVersion := sw16 (u16le f 0x1A)
            csectFat := sw32 (u32le f 0x2C)
            sectDirStart := sw32 (u32le f 0x30)
            ulMiniSectorCutoff := sw32 (u32le f 0x38)
            sectMiniFatStart := sw32 (u32le f 0x3C)
            csectMiniFat := sw32 (u32le f 0x40)
            sectDifStart := sw32 (u32le f 0x44)
            sectFat := (List.range 109).map (fun i => u32le f (0x4C + 4 * i))
            root := zeroDir }
        if sigOk f then cfbFinish cfb0 fuel
        else some (Except.error CFB_SIG_ERR)
      else some (Except.error (CFB_READ_ERR + CFB_HEADER_ERR))
    else some (Except.error CFB_BYTEORDE_ERR)

/-
src/doc.h: error codes, FibBase flag accessors, the FIB decoder
_cfb_doc_fib_init (lines 2538-2787).
-/

def DOC_ERR_FILE : Nat := 2
def DOC_ERR_HEADER : Nat := 3

/-- struct Fib restricted to the fields later code consults.  rgFcLcb holds the
    raw little-endian 32-bit words of the fibRgFcLcbBlob: the byte-swap loop
    over this array is commented out in the source (src/doc.h lines 2730-2735),
    so the stored words are unswapped even for a big-endian container. -/
structure Fib where
  wIdent : Nat
  nFib : Nat
  flagsABCDEFGHIJKLM : Nat
  csw : Nat
  cslw : Nat
  ccpText : Nat
  ccpFtn : Nat
  ccpHdd : Nat
  reserved3 : Nat
  ccpAtn : Nat
  ccpEdn : Nat
  ccpTxbx : Nat
  ccpHdrTxbx : Nat
  cbRgFcLcb : Nat
  rgFcLcb : List Nat
  cswNew : Nat
deriving DecidableEq, Repr

/-- FibBaseF (src/doc.h lines 300-302): the encryption flag, bit 8 of the
    packed flags word. -/
def FibBaseF (fib : Fib) : Nat := (fib.flagsABCDEFGHIJKLM &&& 0x0100) >>> 8

/-- FibBaseG (src/doc.h lines 303-305): the Table-stream selector bit. -/
def FibBaseG (fib : Fib) : Nat := (fib.flagsABCDEFGHIJKLM &&& 0x0200) >>> 9

/-- _cfb_doc_fib_init over the WordDocument stream bytes.  The reads are
    sequential from offset zero: FibBase at 0 (32 bytes), csw at 32, FibRgW97
    at 34 (28 bytes), cslw at 62, FibRgLw97 at 64 (88 bytes), cbRgFcLcb at
    152, the blob at 154, cswNew after the blob (this fread is unchecked in
    the source, but the field was initialised to zero, so a failed read leaves
    zero), then the cswNew words.  Checks: wIdent = 0xA5EC, csw = 14,
    cslw = 22.  The FibRgLw97 field reserved3 is not in the byte-swap list of
    the source and is kept raw. -/
def fibFields (wd : Bytes) (bo : Bool) (cb cswNew : Nat) : Fib :=
  { wIdent := if bo then bswap16 (u16le wd 0) else u16le wd 0
    nFib := if bo then bswap16 (u16le wd 2) else u16le wd 2
    flagsABCDEFGHIJKLM := if bo then bswap16 (u16le wd 10) else u16le wd 10
    csw := if bo then bswap16 (u16le wd 32) else u16le wd 32
    cslw := if bo then bswap16 (u16le wd 62) else u16le wd 62
    ccpText := if bo then bswap32 (u32le wd 76) else u32le wd 76
    ccpFtn := if bo then bswap32 (u32le wd 80) else u32le wd 80
    ccpHdd := if bo then bswap32 (u32le wd 84) else u32le wd 84
    reserved3 := u32le wd 88
    ccpAtn := if bo then bswap32 (u32le wd 92) else u32le wd 92
    ccpEdn := if bo then bswap32 (u32le wd 96) else u32le wd 96
    ccpTxbx := if bo then bswap32 (u32le wd 100) else u32le wd 100
    ccpHdrTxbx := if bo then bswap32 (u32le wd 104) else u32le wd 104
    cbRgFcLcb := cb
    rgFcLcb := (List.range (2 * cb)).map (fun k => u32le wd (154 + 4 * k))
    cswNew := cswNew }

/-- The last stage of _cfb_doc_fib_init: the fibRgCswNew words are read (and
    checked) only when cswNew is positive; their values are not kept. -/
def fibNew (wd : Bytes) (bo : Bool) (cb cswNew : Nat) : Except Nat Fib :=
  if cswNew > 0 ∧ ¬ (156 + 8 * cb + 2 * cswNew ≤ wd.length) then
    Except.error DOC_ERR_FILE
  else Except.ok (fibFields wd bo cb cswNew)

/-- The blob stage of _cfb_doc_fib_init: fread of the cb 64-bit words of the
    fibRgFcLcbBlob, then the cswNew read at 154 + 8 cb (that fread is
    unchecked in the source, but the field was initialised to zero, so a
    failed read leaves zero, and the byte swap of zero is zero). -/
def fibBlob (wd : Bytes) (bo : Bool) (cb : Nat) : Except Nat Fib :=
  if 154 + 8 * cb ≤ wd.length then
    fibNew wd bo cb (if bo then bswap16 ((readU16 wd (154 + 8 * cb)).getD 0)
      else (readU16 wd (154 + 8 * cb)).getD 0)
  else Except.error DOC_ERR_FILE

/-- _cfb_doc_fib_init over the WordDocument stream bytes.  The reads are
    sequential from offset zero: FibBase at 0 (32 bytes), csw at 32, FibRgW97
    at 34 (28 bytes), cslw at 62, FibRgLw97 at 64 (88 bytes), cbRgFcLcb at
    152, then the blob stage.  Checks: wIdent = 0xA5EC, csw = 14, cslw = 22.
    The FibRgLw97 field reserved3 is not in the byte-swap list of the source
    and is kept raw. -/
def fibInit (wd : Bytes) (bo : Bool) : Except Nat Fib :=
  if 32 ≤ wd.length then
    if (if bo then bswap16 (u16le wd 0) else u16le wd 0) = 0xA5EC then
      if 34 ≤ wd.length then
        if (if bo then bswap16 (u16le wd 32) else u16le wd 32) = 14 then
          if 62 ≤ wd.length then
            if 64 ≤ wd.length then
              if (if bo then bswap16 (u16le wd 62) else u16le wd 62) = 22 then
                if 152 ≤ wd.length then
                  if 154 ≤ wd.length then
                    fibBlob wd bo
                      (if bo then bswap16 (u16le wd 152) else u16le wd 152)
                  else Except.error DOC_ERR_FILE
                else Except.error DOC_ERR_FILE
              else Except.error DOC_ERR_HEADER
            else Except.error DOC_ERR_FILE
          else Except.error DOC_ERR_FILE
        else Except.error DOC_ERR_HEADER
      else Except.error DOC_ERR_FILE
    else Except.error DOC_ERR_HEADER
  else Except.error DOC_ERR_FILE

/-
The Clx and piece table: FcCompressed helpers (src/doc.h lines 2306-2401),
_plcpcd_init (lines 2800-2900) and _clx_init (lines 2902-3009).
-/

/-- FcCompressedSpecialChars (src/doc.h lines 2311-2337). -/
def FcCompressedSpecialChars : List (Nat × Nat) :=
  [(0x82, 0x201A), (0x83, 0x0192), (0x84, 0x201E), (0x85, 0x2026),
   (0x86, 0x2020), (0x87, 0x2021), (0x88, 0x02C6), (0x89, 0x2030),
   (0x8A, 0x0160), (0x8B, 0x2039), (0x8C, 0x0152), (0x91, 0x2018),
   (0x92, 0x2019), (0x93, 0x201C), (0x94, 0x201D), (0x95, 0x2022),
   (0x96, 0x2013), (0x97, 0x2014), (0x98, 0x02DC), (0x99, 0x2122),
   (0x9A, 0x0161), (0x9B, 0x203A), (0x9C, 0x0153), (0x9F, 0x0178)]

/-- FcCompressedSpecialChar_get: bsearch on the table.  The key pointer is a
    16-bit integer reinterpreted as the entry struct, whose first field is the
    low byte of the argument on a little-endian host. -/
def FcCompressedSpecialCharGet (n : Nat) : Nat :=
  match FcCompressedSpecialChars.find? (fun p => p.1 = n % 256) with
  | some p => p.2
  | none => 0

/-- FcCompressed: bit 30 of the fc word marks 8-bit text. -/
def FcCompressed (fc : Nat) : Bool := fc &&& 0x40000000 = 0x40000000

/-- FcValue: the offset part of the fc word. -/
def FcValue (fc : Nat) : Nat := fc &&& 0x3FFFFFFF

/-- struct Pcd as the consuming code reads it. -/
structure PcdM where
  abcfr2 : Nat
  fc : Nat
  prm : Nat
deriving DecidableEq, Repr

/-- struct PlcPcd: the CP array with its count and the Pcd array with the
    count the source computes (size / 8, see plcpcdInit). -/
structure PlcPcdM where
  aCp : List Nat
  aCPl : Nat
  aPcd : List PcdM
  aPcdl : Nat
deriving DecidableEq, Repr

/-- The lastCp computation of _plcpcd_init (32-bit unsigned arithmetic). -/
def docLastCp (fib : Fib) : Nat :=
  let aux := w32 (fib.ccpFtn + fib.ccpHdd + fib.reserved3 + fib.ccpAtn +
    fib.ccpEdn + fib.ccpTxbx + fib.ccpHdrTxbx)
  if aux ≠ 0 then w32 (aux + 1 + fib.ccpText) else fib.ccpText

/-- The CP-reading loop of _plcpcd_init: read 32-bit values from the Table
    stream until a read fails (end of stream) or the value read equals lastCp;
    returns the collected values and the stream position after the loop.  The
    loop is bounded by the stream length, supplied as fuel by the caller. -/
def readCps (table : Bytes) (bo : Bool) (lastCp : Nat) :
    Nat → Nat → List Nat → (List Nat × Nat)
  | 0, pos, acc => (acc.reverse, pos)
  | fuel + 1, pos, acc =>
    match readU32 table pos with
    | none => (acc.reverse, pos)
    | some raw =>
      let ch := if bo then bswap32 raw else raw
      if ch = lastCp then ((ch :: acc).reverse, pos + 4)
      else readCps table bo lastCp fuel (pos + 4) (ch :: acc)

/-- Parse one in-memory struct Pcd from the raw bytes the source fread into
    the array.  On the ABIs the source runs on, struct Pcd has size 12 with
    the fc member at offset 4 and prm at offset 8 (alignment padding), while
    the on-disk Pcd is 8 bytes; the parse follows the in-memory layout the
    consuming code actually indexes. -/
def parsePcdAt (raw : Bytes) (i : Nat) : PcdM :=
  { abcfr2 := u16le raw (12 * i)
    fc := u32le raw (12 * i + 4)
    prm := u16le raw (12 * i + 8) }

/-- _plcpcd_init: read CPs until lastCp or end of stream, set aCPl to their
    count, compute size = lcb - 4 * count in 32-bit unsigned arithmetic, fread
    size bytes (unchecked; missing bytes are indeterminate and modelled zero),
    and set aPcdl = size / 8.  Entries of aPcd past the fread buffer are heap
    garbage in C; the list holds the entries fully inside the buffer, and the
    byte-swap loop of the source, which runs to aPcdl, is modelled only when
    it stays inside the buffer (none otherwise). -/
def plcpcdInit (table : Bytes) (pos : Nat) (lcb : Nat) (lastCp : Nat)
    (bo : Bool) : Option PlcPcdM :=
  let r := readCps table bo lastCp table.length pos []
  let cps := r.1
  let pos2 := r.2
  let size := sub32 lcb (4 * cps.length)
  let raw := readSectorPad table pos2 size
  let n := size / 12
  let pcds := (List.range n).map (parsePcdAt raw)
  let aPcdl := size / 8
  if bo ∧ aPcdl > n then none
  else
    let pcds2 := if bo then
      pcds.map (fun p =>
        { abcfr2 := bswap16 p.abcfr2, fc := bswap32 p.fc, prm := bswap16 p.prm })
      else pcds
    some { aCp := cps, aCPl := cps.length, aPcd := pcds2, aPcdl := aPcdl }

/-- struct Clx as far as later code consults it. -/
structure ClxM where
  clxt : Nat
  lcb : Nat
  plc : PlcPcdM
deriving DecidableEq, Repr

/-- The Pcdt part of _clx_init: the byte in hand must be 0x02, then lcb is
    read (fread unchecked: a failed read leaves lcb indeterminate, modelled
    none) and _plcpcd_init runs; its return value is ignored by the source,
    so a parsed PlcPcd always yields return 0. -/
def clxPcdt (table : Bytes) (bo : Bool) (lastCp : Nat) (pos : Nat) (ch : Nat) :
    Option (Except Nat ClxM) :=
  if ch ≠ 0x02 then some (Except.error DOC_ERR_FILE)
  else
    match readU32 table pos with
    | none => none
    | some lcbRaw =>
      let lcb := if bo then bswap32 lcbRaw else lcbRaw
      match plcpcdInit table (pos + 4) lcb lastCp bo with
      | none => none
      | some plc => some (Except.ok { clxt := ch, lcb := lcb, plc := plc })

/-- _clx_init (src/doc.h lines 2902-3009): read the first Clx byte at fcClx
    (unchecked fread: failure leaves it indeterminate, none); if it is 0x01,
    handle ONE PrcData: read the signed 16-bit cbGrpprl, fail with
    DOC_ERR_FILE when it exceeds 0x3FA2, skip that many bytes and read the
    next byte (when the skip or that read runs past the end of the stream the
    unchecked fread leaves the previous value 0x01 in place); then require the
    Pcdt tag 0x02.  The lcbClx argument is never used by the source.  A
    negative cbGrpprl turns into a huge allocation in the source and is not
    modelled (none). -/
def clxInit (table : Bytes) (fcClx : Nat) (lcbClx : Nat) (lastCp : Nat)
    (bo : Bool) : Option (Except Nat ClxM) :=
  match table.get? fcClx with
  | none => none
  | some ch =>
    if ch = 0x01 then
      match readU16 table (fcClx + 1) with
      | none => none
      | some raw =>
        if 0x8000 ≤ (if bo then bswap16 raw else raw) then none
        else if 0x3FA2 < (if bo then bswap16 raw else raw) then
          some (Except.error DOC_ERR_FILE)
        else
          clxPcdt table bo lastCp
            (fcClx + 3 + (if bo then bswap16 raw else raw) + 1)
            ((table.get? (fcClx + 3 + (if bo then bswap16 raw else raw))).getD 0x01)
    else clxPcdt table bo lastCp (fcClx + 1) ch

/-
The fragment of cfb_doc_init that extracts fcClx and lcbClx
(src/doc.h lines 3036-3058).
-/

/-- The pair of arguments cfb_doc_init passes to _clx_init at line 3056: the
    raw rgFcLcb words at indices 66 and 67 (the fcClx and lcbClx members of
    FibRgFcLcb97). -/
def docClxArgsPassed (fib : Fib) : Nat × Nat :=
  ((fib.rgFcLcb.get? 66).getD 0, (fib.rgFcLcb.get? 67).getD 0)

/-- The local variables fcClx and lcbClx computed at lines 3041-3050: the same
    words with the byte swap applied when the container is big-endian.  These
    locals are only logged and are not the values passed on. -/
def docClxArgsSwapped (fib : Fib) (bo : Bool) : Nat × Nat :=
  (if bo then bswap32 ((fib.rgFcLcb.get? 66).getD 0) else (fib.rgFcLcb.get? 66).getD 0,
   if bo then bswap32 ((fib.rgFcLcb.get? 67).getD 0) else (fib.rgFcLcb.get? 67).getD 0)

/-
Text retrieval: _get_text_for_cp (src/doc.h lines 3136-3204).
-/

/-- The piece-search loop of _get_text_for_cp: scan i upward while i < aPcdl;
    at the first i with aCp at i greater than cp, answer i - 1; when the scan
    runs off the end, answer aPcdl itself (the source then indexes aPcd out of
    range).  Reading aCp outside the collected array is indeterminate (none).
    The first argument counts the remaining iterations. -/
def findPieceLoop (aCp : List Nat) (cp : Nat) : Nat → Nat → Option Int
  | 0, i => some (i : Int)
  | k + 1, i =>
    match aCp.get? i with
    | none => none
    | some v => if v > cp then some ((i : Int) - 1) else findPieceLoop aCp cp k (i + 1)

/-- The body of one iteration of _get_text_for_cp: find the piece, read its
    Pcd (an index outside the parsed array is indeterminate, none), and emit
    one C string: for a compressed piece the single raw byte at offset
    fc / 2 + (cp - aCp at i) of the WordDocument stream, with no byte mapping
    (a failed one-byte fread leaves the zero-initialised buffer, an empty
    string); for an uncompressed piece the UTF-8 encoding of the 16-bit unit
    at offset fc + 2 * (cp - aCp at i). -/
def getTextOne (wdoc : Bytes) (bo : Bool) (plc : PlcPcdM) (cp : Nat) :
    Option Bytes :=
  match findPieceLoop plc.aCp cp plc.aPcdl 0 with
  | none => none
  | some i =>
    if i < 0 then none
    else
      match plc.aPcd.get? i.toNat with
      | none => none
      | some pcd =>
        match plc.aCp.get? i.toNat with
        | none => none
        | some acpi =>
          if FcCompressed pcd.fc then
            let off := w32 (FcValue pcd.fc / 2 + sub32 cp acpi)
            let b := (wdoc.get? off).getD 0
            some (cstr [b])
          else
            let off := w32 (FcValue pcd.fc + 2 * sub32 cp acpi)
            match readU16 wdoc off with
            | none => none
            | some u0 =>
              let u := if bo then bswap16 u0 else u0
              some (cstr (utf8enc u))

/-- _get_text_for_cp: emit len consecutive characters starting at cp, each
    through getTextOne, collecting the C strings handed to the sink. -/
def getTextForCp (wdoc : Bytes) (bo : Bool) (plc : PlcPcdM) :
    Nat → Nat → Option (List Bytes)
  | _, 0 => some []
  | cp, l + 1 =>
    match getTextOne wdoc bo plc cp with
    | none => none
    | some chunk =>
      match getTextForCp wdoc bo plc (cp + 1) l with
      | none => none
      | some rest => some (chunk :: rest)

/-
Concrete inputs used by counterexamples and witnesses.
-/

/-- An all-zero container handle used as the default of extraction helpers. -/
def junkCfb : Cfb :=
  { file := [], ministream := [], biteOrder := false, uSectorShift := 0,
    uMiniSectorShift := 0, uDllVersion := 0, csectFat := 0, sectDirStart := 0,
    ulMiniSectorCutoff := 0, sectMiniFatStart := 0, csectMiniFat := 0,
    sectDifStart := 0, sectFat := [], root := zeroDir }

/-- Is an _cfb_init result a successfully opened container. -/
def isOkInit (r : Option (Except Nat Cfb)) : Bool :=
  match r with
  | some (Except.ok _) => true
  | _ => false

/-- Extract the container of a successful _cfb_init result. -/
def cfbOfInit (r : Option (Except Nat Cfb)) : Cfb :=
  match r with
  | some (Except.ok c) => c
  | _ => junkCfb

/-- A container handle with sector shift 2 (4-byte sectors), little-endian,
    whose FAT sector is sector 1 and whose FAT entry for sector 0 is 0x77:
    byte offsets 4..7 hold the value 1 (the header array names sector 1 as the
    FAT location used by the DIFAT branch) and 8..11 hold 0x77. -/
def cfbEx3 : Cfb :=
  { junkCfb with
    file := mkBytes 12 [(4, 1), (8, 0x77)]
    uSectorShift := 2
    uDllVersion := 3
    sectDifStart := 0
    sectFat := List.replicate 109 0 }

/-- A container handle whose FAT maps sector 0 to sector 0 (a self-loop):
    header array entry 0 names sector 1 as the FAT sector, and the FAT entry
    for sector 0 (file offset 8) is zero. -/
def cfbC2 : Cfb :=
  { junkCfb with
    file := mkBytes 12 [(4, 1)]
    uSectorShift := 2
    uDllVersion := 3
    sectFat := (List.replicate 109 0).set 0 1 }

/-- A stream directory entry starting at sector 0 with declared size 10. -/
def dirC2 : CfbDir := { zeroDir with mse := 2, ulSize := 10, sectStart := 0 }

/-- A container handle over an empty byte source. -/
def cfbEmpty : Cfb :=
  { junkCfb with
    uSectorShift := 2
    uDllVersion := 3
    sectFat := List.replicate 109 0 }

/-
Shared helper lemmas.
-/

theorem readU32_nil (off : Nat) : readU32 [] off = none := rfl

theorem difatLoc_inl (cfb : Cfb) (fatn ssize : Nat) :
    ∀ (i d r : Nat), difatLoc cfb fatn ssize i d = Sum.inl r →
      r = ENDOFCHAIN := by
  intro i
  induction i with
  | zero => intro d r h; cases h
  | succ n ih =>
    intro d r h
    simp only [difatLoc] at h
    cases hr : readU32 cfb.file (w32 (d * ssize + ssize + fatn * 4)) with
    | none =>
      rw [hr] at h
      injection h with h2
      exact h2.symm
    | some ch =>
      rw [hr] at h
      exact ih _ r h

theorem fatNextDifat_nil (cfb : Cfb) (sect : Nat) (hfile : cfb.file = []) :
    fatNextDifat cfb sect = some ENDOFCHAIN := by
  unfold fatNextDifat
  simp only [hfile, readU32_nil]
  split
  · rename_i r hr
    rw [difatLoc_inl cfb _ _ _ _ r hr]
  · rfl

theorem readSectorPad_length (f : Bytes) (off len : Nat) :
    (readSectorPad f off len).length = len := by
  simp [readSectorPad]

theorem streamLoop_length (next : Nat → Option Nat) (f : Bytes)
    (ssize sstart : Nat) :
    ∀ fuel sect acc out, streamLoop next f ssize sstart fuel sect acc = some out →
      ∃ k, out.length = acc.length + k * ssize := by
  intro fuel
  induction fuel with
  | zero => intro sect acc out h; simp [streamLoop] at h
  | succ n ih =>
    intro sect acc out h
    by_cases hs : sect = ENDOFCHAIN
    · simp [streamLoop, hs] at h
      exact ⟨0, by simp [← h]⟩
    · simp only [streamLoop, if_neg hs] at h
      cases hn : next sect with
      | none => rw [hn] at h; cases h
      | some s2 =>
        rw [hn] at h
        obtain ⟨k, hk⟩ := ih s2 _ out h
        refine ⟨k + 1, ?_⟩
        rw [hk]
        simp [readSectorPad_length]
        ring

/-
Claim C2.
-/

/-- Claim C2 counterexample: on the container cfbC2 the FAT next-hop maps
    sector 0 to sector 0 again, so the very first step of the chain walk
    revisits a sector, yet cfb_get_stream_by_dir raises no error and keeps
    looping: after 64 iterations the copy loop of the stream materialisation
    is still running (no abort for a repeated sector, an over-range sector or
    an iteration bound exists in the source).  The claim asserts the walk
    terminates on every input and aborts with an error in these cases. -/
theorem c2_counterexample :
    fatNext cfbC2 0 = some 0 ∧ cfbGetStreamByDir cfbC2 dirC2 64 = none :=
  ⟨by decide, by decide⟩

/-- Claim C2, amended: the copy loop of cfb_get_stream_by_dir repeatedly
    applies the next-hop function with no revisit detection, no sector-range
    abort and no iteration bound, stopping only at ENDOFCHAIN; consequently,
    whenever the next-hop function maps a sector to itself the loop never
    terminates: it is still running after any number of iterations. -/
theorem c2_self_loop_never_terminates (next : Nat → Option Nat) (f : Bytes)
    (ssize sstart sect : Nat) (hs : sect ≠ ENDOFCHAIN)
    (hloop : next sect = some sect) :
    ∀ fuel acc, streamLoop next f ssize sstart fuel sect acc = none := by
  intro fuel
  induction fuel with
  | zero => intro acc; rfl
  | succ n ih =>
    intro acc
    simp only [streamLoop, if_neg hs, hloop]
    exact ih _

theorem c2_witness :
    (0 : Nat) ≠ ENDOFCHAIN ∧ fatNext cfbC2 0 = some 0 ∧
      streamLoop (fatNext cfbC2) cfbC2.file 4 4 7 0 [] = none :=
  ⟨by decide, by decide,
    c2_self_loop_never_terminates (fatNext cfbC2) cfbC2.file 4 4 0
      (by decide) (by decide) 7 []⟩

/-
Claim C3.
-/

/-- Claim C3 counterexample: with 4-byte sectors (shift 2) the FAT sector
    containing the entry for sector index 109 is FAT sector 109 / 1 = 109,
    not among the first 109, so the claim says the DIFAT continuation chain
    is walked.  The source instead takes the header branch (its condition is
    sect < sector_size_in_bytes * 109 = 436) and indexes the 109-entry header
    array at 109, outside the array (an indeterminate read, none), while the
    DIFAT branch of the same function would have produced the well-defined
    answer 0x77 on this container. -/
theorem c3_counterexample :
    fatNext cfbEx3 109 = none ∧ fatNextDifat cfbEx3 109 = some 0x77 ∧
      ¬ (109 / (2 ^ cfbEx3.uSectorShift / 4) < 109) :=
  ⟨by decide, by decide, by decide⟩

/-- Claim C3, amended: the branch test of _cfb_next_sect_in_FAT_chain is
    sect < ssize * 109 computed in 32-bit DWORD arithmetic, so the bound is
    109 * sector_size_in_bytes reduced modulo 2^32 (the wrap only matters for
    uSectorShift of 26 or more, which header validation does not exclude).
    Below the wrap (109 * sector_size < 2^32): for sector indices whose
    containing FAT sector s / (sector_size / 4) is among the first 109 the
    next-hop is read through the header array at that index, as the claim
    states; but the header branch is taken for every s below
    109 * sector_size (a byte count, four times too large), so for s between
    109 * (sector_size / 4) and 109 * sector_size the code still takes the
    header branch with an array index of at least 109, outside the 109-entry
    embedded array; and for s at or above 109 * sector_size (this direction
    needs no wrap bound, since the wrapped bound is never larger) the DIFAT
    continuation chain is walked. -/
theorem c3_header_branch_bound :
    (∀ cfb sect, 2 ≤ cfb.uSectorShift →
      2 ^ cfb.uSectorShift * 109 < 4294967296 → sect ≤ MAXSECT →
      sect / (2 ^ cfb.uSectorShift / 4) < 109 →
      fatNext cfb sect = fatNextHeader cfb sect) ∧
    (∀ cfb sect, 2 ≤ cfb.uSectorShift →
      2 ^ cfb.uSectorShift * 109 < 4294967296 → sect ≤ MAXSECT →
      109 * (2 ^ cfb.uSectorShift / 4) ≤ sect →
      sect < 2 ^ cfb.uSectorShift * 109 →
      fatNext cfb sect = fatNextHeader cfb sect ∧
        109 ≤ sect / (2 ^ cfb.uSectorShift / 4)) ∧
    (∀ cfb sect, sect ≤ MAXSECT → 2 ^ cfb.uSectorShift * 109 ≤ sect →
      fatNext cfb sect = fatNextDifat cfb sect) := by
  refine ⟨?_, ?_, ?_⟩
  · intro cfb sect hshift hnw hle hdiv
    have hS : 0 < 2 ^ cfb.uSectorShift / 4 :=
      Nat.div_pos (by
        calc (4 : Nat) = 2 ^ 2 := rfl
        _ ≤ 2 ^ cfb.uSectorShift := Nat.pow_le_pow_right (by norm_num) hshift)
        (by norm_num)
    have h1 : sect < 109 * (2 ^ cfb.uSectorShift / 4) :=
      (Nat.div_lt_iff_lt_mul hS).mp hdiv
    have h2 : 109 * (2 ^ cfb.uSectorShift / 4) ≤ 109 * 2 ^ cfb.uSectorShift :=
      Nat.mul_le_mul_left _ (Nat.div_le_self _ _)
    have h3 : sect < 2 ^ cfb.uSectorShift * 109 := by
      calc sect < 109 * (2 ^ cfb.uSectorShift / 4) := h1
      _ ≤ 109 * 2 ^ cfb.uSectorShift := h2
      _ = 2 ^ cfb.uSectorShift * 109 := Nat.mul_comm _ _
    have hw : w32 (2 ^ cfb.uSectorShift * 109) = 2 ^ cfb.uSectorShift * 109 :=
      Nat.mod_eq_of_lt hnw
    simp only [fatNext, if_neg (not_lt.mpr hle), hw, if_pos h3]
  · intro cfb sect hshift hnw hle hlo hhi
    constructor
    · have hw : w32 (2 ^ cfb.uSectorShift * 109) = 2 ^ cfb.uSectorShift * 109 :=
        Nat.mod_eq_of_lt hnw
      simp only [fatNext, if_neg (not_lt.mpr hle), hw, if_pos hhi]
    · have hS : 0 < 2 ^ cfb.uSectorShift / 4 :=
        Nat.div_pos (by
          calc (4 : Nat) = 2 ^ 2 := rfl
          _ ≤ 2 ^ cfb.uSectorShift := Nat.pow_le_pow_right (by norm_num) hshift)
          (by norm_num)
      exact (Nat.le_div_iff_mul_le hS).mpr hlo
  · intro cfb sect hle hge
    have hge' : w32 (2 ^ cfb.uSectorShift * 109) ≤ sect :=
      le_trans (Nat.mod_le _ _) hge
    simp only [fatNext, if_neg (not_lt.mpr hle), if_neg (not_lt.mpr hge')]

theorem c3_witness :
    (2 ≤ cfbEx3.uSectorShift ∧ 2 ^ cfbEx3.uSectorShift * 109 < 4294967296 ∧
      (5 : Nat) ≤ MAXSECT ∧
      5 / (2 ^ cfbEx3.uSectorShift / 4) < 109 ∧
      fatNext cfbEx3 5 = fatNextHeader cfbEx3 5) ∧
    ((109 : Nat) ≤ MAXSECT ∧ 109 * (2 ^ cfbEx3.uSectorShift / 4) ≤ 109 ∧
      109 < 2 ^ cfbEx3.uSectorShift * 109 ∧
      fatNext cfbEx3 109 = fatNextHeader cfbEx3 109) ∧
    ((436 : Nat) ≤ MAXSECT ∧ 2 ^ cfbEx3.uSectorShift * 109 ≤ 436 ∧
      fatNext cfbEx3 436 = fatNextDifat cfbEx3 436) :=
  ⟨⟨by decide, by decide, by decide, by decide,
      c3_header_branch_bound.1 cfbEx3 5 (by decide) (by decide) (by decide)
        (by decide)⟩,
   ⟨by decide, by decide, by decide,
      (c3_header_branch_bound.2.1 cfbEx3 109 (by decide) (by decide) (by decide)
        (by decide) (by decide)).1⟩,
   ⟨by decide, by decide,
      c3_header_branch_bound.2.2 cfbEx3 436 (by decide) (by decide)⟩⟩

/-
Claim C10.
-/

/-- Claim C10: the next-hop functions are total and never surface an error:
    any sector index above MAXSECT (0xFFFFFFFB) yields ENDOFCHAIN immediately
    in both the FAT and the mini-FAT next-hop; and when the four-byte table
    read fails (here: the byte source is empty, so every read fails), both
    return ENDOFCHAIN instead of an error, silently terminating the chain. -/
theorem c10_next_total_endofchain :
    (∀ cfb sect, MAXSECT < sect →
      fatNext cfb sect = some ENDOFCHAIN ∧ mFatNext cfb sect = some ENDOFCHAIN) ∧
    (∀ cfb sect, sect ≤ MAXSECT → sect < 2 ^ cfb.uSectorShift * 109 →
      (cfb.sectFat.get? (sect / (2 ^ cfb.uSectorShift / 4))).isSome →
      cfb.file = [] → fatNext cfb sect = some ENDOFCHAIN) ∧
    (∀ cfb sect, sect ≤ MAXSECT → sect < 2 ^ cfb.uSectorShift / 4 →
      cfb.file = [] → mFatNext cfb sect = some ENDOFCHAIN) := by
  refine ⟨?_, ?_, ?_⟩
  · intro cfb sect h
    constructor
    · simp only [fatNext, if_pos h]
    · simp only [mFatNext, if_pos h]
  · intro cfb sect hle hlt hsome hfile
    simp only [fatNext, if_neg (not_lt.mpr hle)]
    rw [Option.isSome_iff_exists] at hsome
    obtain ⟨fat0, hf⟩ := hsome
    simp only [fatNextHeader, hf, hfile, readU32_nil,
      fatNextDifat_nil cfb sect hfile, ite_self]
  · intro cfb sect hle hlt hfile
    have hz : sect / (2 ^ cfb.uSectorShift / 4) = 0 := Nat.div_eq_of_lt hlt
    simp only [mFatNext, if_neg (not_lt.mpr hle), hz, mFatLoc, hfile, readU32_nil]

theorem c10_witness :
    (MAXSECT < 0xFFFFFFFF ∧ fatNext cfbEmpty 0xFFFFFFFF = some ENDOFCHAIN ∧
      mFatNext cfbEmpty 0xFFFFFFFF = some ENDOFCHAIN) ∧
    ((0 : Nat) ≤ MAXSECT ∧ 0 < 2 ^ cfbEmpty.uSectorShift * 109 ∧
      (cfbEmpty.sectFat.get? 0).isSome ∧ cfbEmpty.file = [] ∧
      fatNext cfbEmpty 0 = some ENDOFCHAIN) ∧
    ((0 : Nat) < 2 ^ cfbEmpty.uSectorShift / 4 ∧
      mFatNext cfbEmpty 0 = some ENDOFCHAIN) := by
  refine ⟨⟨by decide, (c10_next_total_endofchain.1 cfbEmpty 0xFFFFFFFF (by decide))⟩,
    ⟨by decide, by decide, by decide, rfl,
      c10_next_total_endofchain.2.1 cfbEmpty 0 (by decide) (by decide) (by decide) rfl⟩,
    ⟨by decide,
      c10_next_total_endofchain.2.2 cfbEmpty 0 (by decide) (by decide) rfl⟩⟩

/-
Claim C1.
-/

/-- A complete little-endian container: valid signature, sector shift 2
    (4-byte sectors, which the source accepts since it computes the sector
    size from the shift), directory chain starting at sector 0 (so SID n is
    parsed from byte offset 512 + 128 n), mini-sector cutoff zero (every
    stream goes through the FAT), no mini-FAT, a Root entry named R, and a
    stream entry named S at SID 1 with declared size 300 starting at sector
    50, whose FAT entry (header array entry 50 names FAT sector 124, whose
    first field lies at byte offset 500) is ENDOFCHAIN, making a one-sector
    chain. -/
def fC1 : Bytes := mkBytes 768 [
  (0, 0xd0), (1, 0xcf), (2, 0x11), (3, 0xe0),
  (4, 0xa1), (5, 0xb1), (6, 0x1a), (7, 0xe1),
  (0x1A, 3),
  (0x1C, 0xFE), (0x1D, 0xFF),
  (0x1E, 2),
  (0x20, 6),
  (0x2C, 1),
  (0x3C, 0xFE), (0x3D, 0xFF), (0x3E, 0xFF), (0x3F, 0xFF),
  (0x44, 0xFE), (0x45, 0xFF), (0x46, 0xFF), (0x47, 0xFF),
  (276, 124),
  (500, 0xFE), (501, 0xFF), (502, 0xFF), (503, 0xFF),
  (512, 0x52),
  (576, 4),
  (578, 5),
  (580, 0xFF), (581, 0xFF), (582, 0xFF), (583, 0xFF),
  (584, 0xFF), (585, 0xFF), (586, 0xFF), (587, 0xFF),
  (588, 1),
  (640, 0x53),
  (704, 4),
  (706, 2),
  (708, 0xFF), (709, 0xFF), (710, 0xFF), (711, 0xFF),
  (712, 0xFF), (713, 0xFF), (714, 0xFF), (715, 0xFF),
  (716, 0xFF), (717, 0xFF), (718, 0xFF), (719, 0xFF),
  (756, 50),
  (760, 0x2C), (761, 0x01)]

/-- The container handle _cfb_init produces for fC1. -/
def cfbC1val : Cfb := cfbOfInit (cfbInit fC1 1)

/-- Claim C1 counterexample: fC1 is accepted by open_container, its directory
    entry SID 1 is a stream entry of declared size 300, yet the buffer
    cfb_get_stream_by_dir materialises for it has length 4 (one whole sector of
    the 4-byte sector size this container selects): whole sectors of
    the chain are concatenated and nothing truncates the result to the
    declared stream size (the source reads _ulSize into the variable st and
    uses it only to choose between the mini-FAT and FAT chains). -/
theorem c1_counterexample :
    isOkInit (cfbInit fC1 1) = true ∧
    (cfbGetDirBySid cfbC1val 1).map CfbDir.ulSize = some 300 ∧
    ((cfbGetDirBySid cfbC1val 1).bind
      (fun d => cfbGetStreamByDir cfbC1val d 8)).map List.length = some 4 ∧
    ((cfbGetDirBySid cfbC1val 1).bind
      (fun d => cfbGetStreamByDir cfbC1val d 8)).map List.length ≠ some 300 := by
  refine ⟨by decide, by decide, by decide, by decide⟩

/-- Claim C1, amended: the buffer cfb_get_stream_by_dir returns is the
    concatenation of whole sectors: its length is always a multiple of the
    sector size selected for the stream (the mini-sector size on the mini-FAT
    path, the sector size on the FAT path); the buffer is not truncated to the
    declared entry size _ulSize, whose only role is selecting that path (the
    mini-FAT is chosen when _ulSize is below the cutoff and the entry is not
    the Root). -/
theorem c1_stream_length_whole_sectors (cfb : Cfb) (dir : CfbDir) (fuel : Nat)
    (out : Bytes) (h : cfbGetStreamByDir cfb dir fuel = some out) :
    2 ^ (if dir.ulSize < cfb.ulMiniSectorCutoff ∧ dir.mse ≠ 5 then
      cfb.uMiniSectorShift else cfb.uSectorShift) ∣ out.length := by
  by_cases hc : dir.ulSize < cfb.ulMiniSectorCutoff ∧ dir.mse ≠ 5
  · rw [if_pos hc]
    unfold cfbGetStreamByDir at h
    rw [if_pos hc] at h
    obtain ⟨k, hk⟩ := streamLoop_length _ _ _ _ _ _ _ _ h
    simp only [List.length_nil, Nat.zero_add] at hk
    rw [hk]
    exact dvd_mul_left _ _
  · rw [if_neg hc]
    unfold cfbGetStreamByDir at h
    rw [if_neg hc] at h
    obtain ⟨k, hk⟩ := streamLoop_length _ _ _ _ _ _ _ _ h
    simp only [List.length_nil, Nat.zero_add] at hk
    rw [hk]
    exact dvd_mul_left _ _

theorem c1_witness :
    ((cfbGetDirBySid cfbC1val 1).bind
      (fun d => cfbGetStreamByDir cfbC1val d 8)) = some (readSectorPad fC1 204 4) ∧
    2 ^ cfbC1val.uSectorShift ∣ (readSectorPad fC1 204 4).length := by
  constructor
  · decide
  · have h := c1_stream_length_whole_sectors cfbC1val
      ((cfbGetDirBySid cfbC1val 1).getD zeroDir) 8 (readSectorPad fC1 204 4)
      (by decide)
    simpa using h

/-
Claim C4.
-/

/-- A 512-byte input whose first eight bytes are a position-wise mixture of
    the two signatures (byte 0 from the legacy signature, bytes 1..7 from the
    current one), equal to neither as an 8-byte string, with a valid
    little-endian byte-order mark and no mini-FAT. -/
def fMix : Bytes := mkBytes 512 [
  (0, 0x0e), (1, 0xcf), (2, 0x11), (3, 0xe0),
  (4, 0xa1), (5, 0xb1), (6, 0x1a), (7, 0xe1),
  (0x1C, 0xFE), (0x1D, 0xFF)]

/-- Claim C4 counterexample: fMix matches neither signature as a whole 8-byte
    string, yet _cfb_init accepts it, because the source checks each byte
    position against both signatures independently, so any position-wise
    mixture of the two signatures passes.  The claim asserts such an input
    must fail with the signature error. -/
theorem c4_counterexample :
    isOkInit (cfbInit fMix 1) = true ∧
    fMix.take 8 ≠ sigNew ∧ fMix.take 8 ≠ sigOld := by
  refine ⟨by decide, by decide, by decide⟩

theorem cfbFinish_ne_error (cfb0 : Cfb) (fuel e : Nat) :
    cfbFinish cfb0 fuel ≠ some (Except.error e) := by
  intro h
  unfold cfbFinish at h
  split at h
  · split at h
    · cases h
    · simp at h
  · simp at h

/-- Claim C4, amended: for an input with a readable and valid byte-order mark
    and at least 512 bytes, _cfb_init fails with the signature error exactly
    when some byte among the first eight differs from the byte of the current
    signature at that position and from the byte of the legacy signature at
    that position; inputs mixing the two signatures position-wise are
    accepted.  On the signature error no container handle is produced, hence
    no mini-stream is allocated or cached. -/
theorem c4_signature_per_byte (f : Bytes) (fuel bom : Nat)
    (hbom : readU16 f 0x1C = some bom) (hv : bom = 0xFFFE ∨ bom = 0xFEFF)
    (hlen : 512 ≤ f.length) :
    cfbInit f fuel = some (Except.error CFB_SIG_ERR) ↔ sigOk f = false := by
  unfold cfbInit
  simp only [hbom]
  rw [if_pos hv, if_pos hlen]
  constructor
  · intro h
    cases hx : sigOk f with
    | false => rfl
    | true =>
      exact absurd h (by rw [if_pos hx]; exact cfbFinish_ne_error _ _ _)
  · intro hx
    rw [if_neg (by rw [hx]; simp)]

theorem c4_witness :
    readU16 fC1 0x1C = some 0xFFFE ∧ 512 ≤ fC1.length ∧ sigOk fC1 = true ∧
    ¬ (cfbInit fC1 1 = some (Except.error CFB_SIG_ERR)) := by
  refine ⟨by decide, by decide, by decide, ?_⟩
  intro h
  have := (c4_signature_per_byte fC1 1 0xFFFE (by decide) (Or.inl rfl)
    (by decide)).mp h
  simp only [show sigOk fC1 = true from by decide] at this
  cases this

/-
Claim C5.
-/

theorem strcmpL_eq_zero : ∀ a b : Bytes, a.length = b.length →
    strcmpL a b = 0 → a = b := by
  intro a
  induction a with
  | nil =>
    intro b hl _
    cases b with
    | nil => rfl
    | cons y ys => simp at hl
  | cons x xs ih =>
    intro b hl h
    cases b with
    | nil => simp at hl
    | cons y ys =>
      simp only [List.length_cons, Nat.succ_inj] at hl
      by_cases hxy : x = y
      · simp only [strcmpL, if_pos hxy] at h
        rw [hxy, ih ys hl h]
      · simp only [strcmpL, if_neg hxy] at h
        exfalso
        apply hxy
        have : (x : Int) = (y : Int) := by omega
        exact_mod_cast this

theorem findCompare_zero (name dirname : Bytes)
    (h : findCompare name dirname = 0) : name = dirname := by
  unfold findCompare at h
  by_cases h1 : name.length < dirname.length
  · rw [if_pos h1] at h; cases h
  · rw [if_neg h1] at h
    by_cases h2 : name.length > dirname.length
    · rw [if_pos h2] at h; cases h
    · rw [if_neg h2] at h
      exact strcmpL_eq_zero name dirname (by omega) h

/-- Claim C5, amended: the directory walk of _cfb_dir_find compares the
    target against each entry name decoded to UTF-8 by cfb_dir_name, first by
    byte length (strlen) and then byte-wise (strcmp) — a comparison that
    coincides with the UTF-16 length-then-code-unit rule only for ASCII names
    — and: (1) whenever the walk delivers an entry through the callback, the
    C string of the decoded entry name is exactly the target (in particular
    an entry whose stored name lacks a zero unit, whose observed string is
    partially indeterminate, is never delivered); (2) the return value of the
    walk is always 0 or -1 (-1 only when an entry with _cb = 0 makes
    cfb_dir_name fail): in particular, when no entry matches, the walk still
    returns 0 — the same value as on success — and delivers nothing; no
    NotFound error exists. -/
theorem c5_find_delivers_exact_name :
    (∀ (cfb : Cfb) (name : Bytes) (fuel : Nat) (dir : CfbDir)
      (acc : Option CfbDir) (r : Int) (d : CfbDir),
      (∀ d0, acc = some d0 → cfbDirName d0 = some name) →
      findLoop cfb name fuel dir acc = some (r, some d) →
      cfbDirName d = some name) ∧
    (∀ (cfb : Cfb) (name : Bytes) (fuel : Nat) (dir : CfbDir)
      (acc : Option CfbDir) (r : Int) (fnd : Option CfbDir),
      findLoop cfb name fuel dir acc = some (r, fnd) → r = 0 ∨ r = -1) := by
  constructor
  · intro cfb name fuel
    induction fuel with
    | zero => intro dir acc r d _ h; cases h
    | succ n ih =>
      intro dir acc r d hacc h
      simp only [findLoop] at h
      by_cases hcb : dir.cb = 0
      · rw [if_pos hcb] at h
        simp only [Option.some.injEq, Prod.mk.injEq] at h
        exact hacc d h.2
      · rw [if_neg hcb] at h
        by_cases hz : (0 : Nat) ∈ dirNameUnits dir.ab dir.cb
        · rw [if_pos hz] at h
          have hacc2 : ∀ d0,
              (if findCompare name (cstr (dirNamePrefix dir)) = 0 then some dir
                else acc) = some d0 →
              cfbDirName d0 = some name := by
            intro d0 h0
            by_cases hres : findCompare name (cstr (dirNamePrefix dir)) = 0
            · rw [if_pos hres] at h0
              have hnd := findCompare_zero name _ hres
              have hd0 : d0 = dir := by
                injection h0 with h0e
                exact h0e.symm
              rw [hd0]
              simp only [cfbDirName, if_neg hcb, if_pos hz, hnd]
            · rw [if_neg hres] at h0
              exact hacc d0 h0
          split at h
          · split at h
            · split at h
              · cases h
              · exact ih _ _ _ _ hacc2 h
            · simp only [Option.some.injEq, Prod.mk.injEq] at h
              exact hacc2 d h.2
          · split at h
            · split at h
              · cases h
              · exact ih _ _ _ _ hacc2 h
            · simp only [Option.some.injEq, Prod.mk.injEq] at h
              exact hacc2 d h.2
        · rw [if_neg hz] at h
          split at h
          · split at h
            · split at h
              · cases h
              · exact ih _ _ _ _ hacc h
            · simp only [Option.some.injEq, Prod.mk.injEq] at h
              exact hacc d h.2
          · cases h
  · intro cfb name fuel
    induction fuel with
    | zero => intro dir acc r fnd h; cases h
    | succ n ih =>
      intro dir acc r fnd h
      simp only [findLoop] at h
      by_cases hcb : dir.cb = 0
      · rw [if_pos hcb] at h
        simp only [Option.some.injEq, Prod.mk.injEq] at h
        right
        omega
      · rw [if_neg hcb] at h
        by_cases hz : (0 : Nat) ∈ dirNameUnits dir.ab dir.cb
        · rw [if_pos hz] at h
          split at h
          · split at h
            · split at h
              · cases h
              · exact ih _ _ _ _ h
            · simp only [Option.some.injEq, Prod.mk.injEq] at h
              left
              omega
          · split at h
            · split at h
              · cases h
              · exact ih _ _ _ _ h
            · simp only [Option.some.injEq, Prod.mk.injEq] at h
              left
              omega
        · rw [if_neg hz] at h
          split at h
          · split at h
            · split at h
              · cases h
              · exact ih _ _ _ _ h
            · simp only [Option.some.injEq, Prod.mk.injEq] at h
              left
              omega
          · cases h

/-- The entry at SID 0 of the fC1 container (the Root entry, name R). -/
def dirRoot1 : CfbDir := (cfbGetDirBySid cfbC1val 0).getD zeroDir

/-- Claim C5 counterexample: in the opened container cfbC1val there is no
    entry named B (byte 0x42), yet the name lookup returns 0 — the same value
    it returns on success — and delivers no entry: absence is not reported as
    NotFound (the source has no such error; callers that treat 0 as success
    then read an entry that was never filled in). -/
theorem c5_counterexample :
    isOkInit (cfbInit fC1 1) = true ∧
    cfbGetDirByName cfbC1val 20 [0x42] = some (0, none) := by
  refine ⟨by decide, by decide⟩

theorem c5_witness :
    findLoop cfbC1val [0x52] 20 dirRoot1 none = some (0, some dirRoot1) ∧
    cfbDirName dirRoot1 = some [0x52] := by
  refine ⟨by decide, ?_⟩
  exact c5_find_delivers_exact_name.1 cfbC1val [0x52] 20 dirRoot1 none 0 dirRoot1
    (fun d0 h => by cases h) (by decide)

/-
Claim C6.
-/

/-- Is a FIB decoding result a success. -/
def fibIsOk (e : Except Nat Fib) : Bool :=
  match e with
  | Except.ok _ => true
  | Except.error _ => false

/-- The FibBaseF flag of a successful FIB decoding result (999 on error). -/
def fibFFlag (e : Except Nat Fib) : Nat :=
  match e with
  | Except.ok f => FibBaseF f
  | Except.error _ => 999

theorem get?_set_of_ne : ∀ (l : Bytes) (i j v : Nat), i ≠ j →
    (l.set i v).get? j = l.get? j := by
  intro l
  induction l with
  | nil => intro i j v _; simp [List.set]
  | cons a as ih =>
    intro i j v hne
    cases i with
    | zero =>
      cases j with
      | zero => exact absurd rfl hne
      | succ m => simp [List.set]
    | succ n =>
      cases j with
      | zero => simp [List.set]
      | succ m =>
        simp only [List.set, List.get?]
        exact ih n m v (by omega)

theorem u16le_set_of_ne (f : Bytes) (i v off : Nat) (h1 : i ≠ off)
    (h2 : i ≠ off + 1) : u16le (f.set i v) off = u16le f off := by
  unfold u16le
  rw [get?_set_of_ne f i off v h1, get?_set_of_ne f i (off + 1) v h2]

theorem readU16_set_of_ne (f : Bytes) (i v off : Nat) (h1 : i ≠ off)
    (h2 : i ≠ off + 1) : readU16 (f.set i v) off = readU16 f off := by
  unfold readU16
  rw [get?_set_of_ne f i off v h1, get?_set_of_ne f i (off + 1) v h2]

/-- An input whose FIB passes every check of _cfb_doc_fib_init (wIdent 0xA5EC,
    csw 14, cslw 22, an empty fcLcb blob) and whose FibBase packed flags word
    has bit F, the encryption flag, set (byte 11 bit 0). -/
def wdEnc : Bytes :=
  mkBytes 154 [(0, 0xEC), (1, 0xA5), (11, 0x01), (32, 0x0E), (62, 0x16)]

/-- Claim C6 counterexample: the FIB of wdEnc declares encryption (FibBaseF
    is 1), yet _cfb_doc_fib_init decodes it successfully; no check of the
    flag exists and no Encrypted error exists in the error set of src/doc.h
    (DOC_NO_ERR, DOC_CB_STOP, DOC_ERR_FILE, DOC_ERR_HEADER, DOC_ERR_ALLOC).
    The claim asserts decoding must fail with an Encrypted error. -/
theorem c6_counterexample :
    fibIsOk (fibInit wdEnc false) = true ∧ fibFFlag (fibInit wdEnc false) = 1 := by
  refine ⟨by decide, by decide⟩

theorem fibNew_isOk_set (wd : Bytes) (bo : Bool) (a b c cn : Nat) :
    fibIsOk (fibNew ((wd.set 10 a).set 11 b) bo c cn) = fibIsOk (fibNew wd bo c cn) := by
  have hlen : ((wd.set 10 a).set 11 b).length = wd.length := by
    simp [List.length_set]
  unfold fibNew
  rw [hlen]
  by_cases h : cn > 0 ∧ ¬ (156 + 8 * c + 2 * cn ≤ wd.length)
  · rw [if_pos h, if_pos h]
  · rw [if_neg h, if_neg h]
    rfl

theorem fibBlob_isOk_set (wd : Bytes) (bo : Bool) (a b c : Nat) :
    fibIsOk (fibBlob ((wd.set 10 a).set 11 b) bo c) = fibIsOk (fibBlob wd bo c) := by
  have hlen : ((wd.set 10 a).set 11 b).length = wd.length := by
    simp [List.length_set]
  have hcsw : readU16 ((wd.set 10 a).set 11 b) (154 + 8 * c) =
      readU16 wd (154 + 8 * c) := by
    rw [readU16_set_of_ne _ 11 b _ (by omega) (by omega),
      readU16_set_of_ne _ 10 a _ (by omega) (by omega)]
  unfold fibBlob
  rw [hlen, hcsw]
  by_cases h : 154 + 8 * c ≤ wd.length
  · rw [if_pos h, if_pos h]
    exact fibNew_isOk_set wd bo a b c _
  · rw [if_neg h, if_neg h]

set_option maxHeartbeats 2000000 in
/-- Claim C6, amended: _cfb_doc_fib_init never consults the encryption flag:
    overwriting the two bytes of the packed flags word ABCDEFGHIJKLM (stream
    offsets 10 and 11, which carry bits A through M, among them the
    encryption bit F and the obfuscation bit M) with any values changes
    nothing about whether FIB decoding succeeds; in particular a WordDocument
    whose encryption flag is set decodes exactly like the same document with
    the flag clear, and no Encrypted failure exists. -/
theorem c6_encryption_flag_ignored (wd : Bytes) (bo : Bool) (a b : Nat) :
    fibIsOk (fibInit ((wd.set 10 a).set 11 b) bo) = fibIsOk (fibInit wd bo) := by
  have hlen : ((wd.set 10 a).set 11 b).length = wd.length := by
    simp [List.length_set]
  have h0 : u16le ((wd.set 10 a).set 11 b) 0 = u16le wd 0 := by
    rw [u16le_set_of_ne _ 11 b 0 (by omega) (by omega),
      u16le_set_of_ne _ 10 a 0 (by omega) (by omega)]
  have h32 : u16le ((wd.set 10 a).set 11 b) 32 = u16le wd 32 := by
    rw [u16le_set_of_ne _ 11 b 32 (by omega) (by omega),
      u16le_set_of_ne _ 10 a 32 (by omega) (by omega)]
  have h62 : u16le ((wd.set 10 a).set 11 b) 62 = u16le wd 62 := by
    rw [u16le_set_of_ne _ 11 b 62 (by omega) (by omega),
      u16le_set_of_ne _ 10 a 62 (by omega) (by omega)]
  have h152 : u16le ((wd.set 10 a).set 11 b) 152 = u16le wd 152 := by
    rw [u16le_set_of_ne _ 11 b 152 (by omega) (by omega),
      u16le_set_of_ne _ 10 a 152 (by omega) (by omega)]
  unfold fibInit
  rw [hlen, h0, h32, h62, h152]
  split_ifs <;> first
    | rfl
    | exact fibBlob_isOk_set wd bo a b _

theorem c6_witness :
    fibIsOk (fibInit ((wdEnc.set 10 0).set 11 0) false) =
      fibIsOk (fibInit wdEnc false) :=
  c6_encryption_flag_ignored wdEnc false 0 0

/-
Claim C7.
-/

/-- The Prc-skipping rule as claim C7 (and the specification) states it,
    written from the words of the spec for comparison with the source: while
    the next byte is 0x01, read the signed 16-bit cbGrpprl, fail when it
    exceeds 0x3FA2, and skip that many bytes; then the next byte must be the
    Pcdt tag 0x02.  some true means the Pcdt tag was reached after skipping
    every Prc record; some false a failure; none means a read failed or the
    fuel ran out (negative counts are not modelled, as in clxInit). -/
def clxSkipSpec (table : Bytes) : Nat → Nat → Option Bool
  | 0, _ => none
  | fuel + 1, pos =>
    match table.get? pos with
    | none => none
    | some b =>
      if b = 0x01 then
        match readU16 table (pos + 1) with
        | none => none
        | some raw =>
          if 0x8000 ≤ raw then none
          else if 0x3FA2 < raw then some false
          else clxSkipSpec table fuel (pos + 3 + raw)
      else some (b == 0x02)

/-- A Table stream whose Clx is two Prc records (tag 0x01, cbGrpprl 1, one
    property byte, twice) followed by the Pcdt tag 0x02. -/
def tC7 : Bytes := [0x01, 0x01, 0x00, 0xAA, 0x01, 0x01, 0x00, 0xBB, 0x02]

/-- Claim C7 counterexample: on a Clx of two Prc records followed by a Pcdt,
    the specified decoder (clxSkipSpec, skipping Prc records while the next
    byte is 0x01) reaches the Pcdt tag, but _clx_init fails with
    DOC_ERR_FILE: its Prc handling is a single conditional, not a loop, so
    after skipping one Prc it requires the Pcdt tag immediately and treats
    the second Prc tag 0x01 as an error. -/
theorem c7_counterexample :
    clxInit tC7 0 0 0 false = some (Except.error DOC_ERR_FILE) ∧
    clxSkipSpec tC7 20 0 = some true := by
  refine ⟨rfl, by decide⟩

/-- Claim C7, amended: _clx_init skips at most ONE Prc record: when the first
    Clx byte is 0x01 it reads the signed 16-bit cbGrpprl (failing with
    DOC_ERR_FILE when it exceeds 0x3FA2), skips that many bytes and requires
    the very next byte to be the Pcdt tag 0x02; in particular whenever the
    byte after the first skipped Prc is again 0x01 (a second Prc record), the
    decoder fails with DOC_ERR_FILE instead of skipping it. -/
theorem c7_second_prc_rejected (table : Bytes) (fcClx lcbClx lastCp : Nat)
    (bo : Bool) (raw : Nat)
    (h1 : table.get? fcClx = some 0x01)
    (h2 : readU16 table (fcClx + 1) = some raw)
    (h3 : (if bo then bswap16 raw else raw) ≤ 0x3FA2)
    (h4 : table.get? (fcClx + 3 + (if bo then bswap16 raw else raw)) = some 0x01) :
    clxInit table fcClx lcbClx lastCp bo = some (Except.error DOC_ERR_FILE) := by
  unfold clxInit
  simp only [h1, if_true]
  simp only [h2]
  rw [if_neg (by omega), if_neg (by omega)]
  simp only [h4, Option.getD_some]
  unfold clxPcdt
  rw [if_pos (by decide)]

theorem c7_witness :
    tC7.get? 0 = some 0x01 ∧ readU16 tC7 1 = some 1 ∧ (1 : Nat) ≤ 0x3FA2 ∧
    tC7.get? 4 = some 0x01 ∧
    clxInit tC7 0 0 0 false = some (Except.error DOC_ERR_FILE) := by
  refine ⟨by decide, by decide, by decide, by decide, ?_⟩
  exact c7_second_prc_rejected tC7 0 0 0 false 1 (by decide) (by decide)
    (by decide) (by decide)

/-
Claim C8.
-/

/-- A two-piece piece table whose first piece is compressed with fc offset 0. -/
def plcC8 : PlcPcdM :=
  { aCp := [0, 1, 2]
    aCPl := 3
    aPcd := [{ abcfr2 := 0, fc := 0x40000000, prm := 0 },
             { abcfr2 := 0, fc := 0x40000002, prm := 0 }]
    aPcdl := 2 }

/-- A WordDocument stream whose byte at offset 0 is 0x85. -/
def wdocC8 : Bytes := [0x85, 0x41]

/-- Claim C8 counterexample: extracting the single character at CP 0 of a
    compressed piece whose stored byte is 0x85 emits the raw byte 0x85, not
    the code point U+2026 (UTF-8 E2 80 A6) that the claim requires: the
    emission path of _get_text_for_cp hands the byte to the sink verbatim,
    and the mapping table FcCompressedSpecialChars, which does map 0x85 to
    0x2026, is never consulted by any caller. -/
theorem c8_counterexample :
    getTextForCp wdocC8 false plcC8 0 1 = some [[0x85]] ∧
    FcCompressedSpecialCharGet 0x85 = 0x2026 ∧
    utf8enc 0x2026 = [0xE2, 0x80, 0xA6] ∧
    (([[0x85]] : List Bytes) ≠ [[0xE2, 0x80, 0xA6]]) := by
  refine ⟨by decide, by decide, by decide, by decide⟩

/-- Claim C8, amended: for a compressed piece no byte mapping occurs: the
    character emitted for a CP inside a compressed piece is the single byte
    read from the WordDocument stream at fc / 2 plus the offset inside the
    piece, passed to the sink verbatim as a one-byte C string (empty when the
    byte is zero); neither the identity mapping restricted to 0x00..0x7F nor
    the FcCompressedSpecialChars table is applied. -/
theorem c8_compressed_byte_verbatim (wdoc : Bytes) (bo : Bool) (plc : PlcPcdM)
    (cp : Nat) (i : Int) (pcd : PcdM) (acpi b : Nat)
    (hfind : findPieceLoop plc.aCp cp plc.aPcdl 0 = some i)
    (hpos : ¬ i < 0)
    (hpcd : plc.aPcd.get? i.toNat = some pcd)
    (hacp : plc.aCp.get? i.toNat = some acpi)
    (hcomp : FcCompressed pcd.fc = true)
    (hb : wdoc.get? (w32 (FcValue pcd.fc / 2 + sub32 cp acpi)) = some b) :
    getTextForCp wdoc bo plc cp 1 = some [cstr [b]] := by
  have hone : getTextOne wdoc bo plc cp = some (cstr [b]) := by
    unfold getTextOne
    simp only [hfind]
    rw [if_neg hpos]
    simp only [hpcd, hacp]
    rw [if_pos hcomp]
    simp only [hb, Option.getD_some]
  simp only [getTextForCp, hone]

theorem c8_witness :
    findPieceLoop plcC8.aCp 0 plcC8.aPcdl 0 = some 0 ∧
    plcC8.aPcd.get? 0 = some { abcfr2 := 0, fc := 0x40000000, prm := 0 } ∧
    plcC8.aCp.get? 0 = some 0 ∧
    FcCompressed 0x40000000 = true ∧
    wdocC8.get? 0 = some 0x85 ∧
    getTextForCp wdocC8 false plcC8 0 1 = some [cstr [0x85]] := by
  refine ⟨by decide, by decide, by decide, by decide, by decide, ?_⟩
  exact c8_compressed_byte_verbatim wdocC8 false plcC8 0 0
    { abcfr2 := 0, fc := 0x40000000, prm := 0 } 0 0x85
    (by decide) (by decide) (by decide) (by decide) (by decide) (by decide)

/-
Claim C9.
-/

/-- A junk FIB used as the default of extraction helpers. -/
def junkFib : Fib :=
  { wIdent := 0, nFib := 0, flagsABCDEFGHIJKLM := 0, csw := 0, cslw := 0,
    ccpText := 0, ccpFtn := 0, ccpHdd := 0, reserved3 := 0, ccpAtn := 0,
    ccpEdn := 0, ccpTxbx := 0, ccpHdrTxbx := 0, cbRgFcLcb := 0,
    rgFcLcb := [], cswNew := 0 }

/-- Extract the FIB of a successful decoding result. -/
def fibOf (e : Except Nat Fib) : Fib :=
  match e with
  | Except.ok f => f
  | Except.error _ => junkFib

/-- A big-endian WordDocument stream (its container has byte-order 0xFEFF):
    wIdent bytes A5 EC, csw bytes 00 0E, cslw bytes 00 16, cbRgFcLcb bytes
    00 44 (68 64-bit words, enough to cover fcClx and lcbClx at 32-bit word
    indices 66 and 67), and at stream offsets 418 and 422 the on-disk bytes
    12 34 56 78 and 00 00 00 01 for fcClx and lcbClx. -/
def wdBE : Bytes := mkBytes 698 [
  (0, 0xA5), (1, 0xEC),
  (33, 0x0E),
  (63, 0x16),
  (153, 0x44),
  (418, 0x12), (419, 0x34), (420, 0x56), (421, 0x78),
  (425, 0x01)]

/-- Claim C9 (code bug): for the big-endian document wdBE, decoded with the
    byte-order flag set, cfb_doc_init computes the byte-swapped fcClx and
    lcbClx into local variables (docClxArgsSwapped, src/doc.h lines
    3041-3050) but passes the raw unswapped rgFcLcb words to _clx_init at
    line 3056 (docClxArgsPassed); the byte-swap loop over rgFcLcb in
    _cfb_doc_fib_init is commented out (lines 2730-2735).  Hence the Clx is
    read from Table-stream offset 0x78563412 instead of 0x12345678, so a
    byte-swapped container does not yield the same streams and text as its
    little-endian twin, contrary to the claim and the specification, which
    require every multi-byte integer to be swapped before use. -/
theorem c9_fcclx_passed_unswapped :
    fibIsOk (fibInit wdBE true) = true ∧
    docClxArgsPassed (fibOf (fibInit wdBE true)) = (0x78563412, 0x01000000) ∧
    docClxArgsSwapped (fibOf (fibInit wdBE true)) true = (0x12345678, 0x00000001) ∧
    (docClxArgsPassed (fibOf (fibInit wdBE true))).1 ≠
      (docClxArgsSwapped (fibOf (fibInit wdBE true)) true).1 ∧
    (docClxArgsPassed (fibOf (fibInit wdBE true))).2 ≠
      (docClxArgsSwapped (fibOf (fibInit wdBE true)) true).2 := by
  refine ⟨by decide, by decide, by decide, by decide, by decide⟩

end MsCfb
